import Mathlib

/-!
# Verification of the `/combine` endpoint of the scene image combiner service

Shallow embedding of `src/index.js`, an Express service whose `POST /combine`
handler downloads the images referenced by a request body, lays them out on a
fixed 1080x1920 canvas and responds with a composited PNG (or with JSON in the
degenerate and error cases).

Modelling choices:
* JavaScript numbers that the handler manipulates are integer- or
  rational-valued throughout (pixel counts and ratios of pixel counts), so they
  are embedded as `ℤ` and `ℚ`.  `Math.floor` is `Rat.floor`, and the division
  and scalar multiplication appearing in the handler are expressed through the
  computable primitives `Rat.divInt` and `qmulInt`; the lemmas
  `ratFloor_eq_floor`, `divInt_eq_divCast` and `qmulInt_eq_mul` identify them
  with Mathlib's `⌊·⌋`, `/` and `*` on `ℚ`.
* The network and the image decoder (`axios` download plus `sharp().metadata()`)
  are an oracle `fetchImage : String → Except String Image`: an `Image` is the
  metadata (pixel width and height) of a successfully downloaded and decoded
  image, and an `error` carries the thrown error's `message`.
* `sharp`'s `resize` rejects non-positive target dimensions (it throws
  `Expected positive integer for width/height`); `resizeCheck` embeds that
  contract of the library.
* In the multi-image branch the handler mutates the closure variable `yOffset`
  from `N` `async` callbacks running under `Promise.all`; each callback reads
  and bumps `yOffset` only after awaiting its `sharp(...).resize(...).toBuffer()`.
  The order in which those continuations run is the order in which the resize
  operations complete, which the program does not control.  The embedding makes
  that schedule explicit: `combine` takes an `order : List ℕ` argument, the list
  of input indices in resize-completion order, and `yOffsetAt heights order i`
  is the value of `yOffset` that input `i`'s callback observes.  Completion in
  input order is `order = List.range N`.
* `Promise.all` is the sequential `mapE` (first error wins); the composited PNG
  response is a `Png` value recording the canvas size and, per input image, the
  `left`/`top` offsets and resized dimensions passed to `sharp`'s `composite`.
-/

namespace ImageCombine

/-- A JavaScript scalar value, as far as the handler's validation observes one:
a number, a string, a boolean, `null` or `undefined` (a destructured field that
is absent). -/
inductive JSVal where
  | vnum : ℚ → JSVal
  | vstr : String → JSVal
  | vbool : Bool → JSVal
  | vnull : JSVal
  | vundefined : JSVal
  deriving DecidableEq

/-- JavaScript truthiness of a scalar value: `0`, `""`, `false`, `null` and
`undefined` are falsy, everything else is truthy. -/
def truthy : JSVal → Bool
  | .vnum q => decide (q ≠ 0)
  | .vstr s => decide (s ≠ "")
  | .vbool b => b
  | .vnull => false
  | .vundefined => false

/-- One element of the request's `input` array.  Its `uploaded_image_url` field
is a string or absent (`none` also covers JavaScript `null`/`undefined`). -/
structure Visual where
  uploaded_image_url : Option String
  deriving DecidableEq

/-- The request body's `input` field: either an array of visuals or any
non-array value (including a missing field), which is all that
`Array.isArray(input)` distinguishes. -/
inductive InputField where
  | arr : List Visual → InputField
  | notArray : InputField

/-- Truthiness of a visual's `uploaded_image_url` field, as tested by
`input.filter(visual => visual.uploaded_image_url)`: an absent/null field and
the empty string are falsy. -/
def urlTruthy : Option String → Bool
  | some s => decide (s ≠ "")
  | none => false

/-- `const imageUrls = input.filter(v => v.uploaded_image_url).map(v => v.uploaded_image_url)`. -/
def imageUrls (input : List Visual) : List String :=
  (input.filter fun v => urlTruthy v.uploaded_image_url).map
    fun v => v.uploaded_image_url.getD ""

/-- Pixel metadata of a downloaded image, as reported by `sharp().metadata()`. -/
structure Image where
  width : ℤ
  height : ℤ
  deriving DecidableEq

/-- Exact scalar multiplication of an integer by a rational,
`qmulInt w q = w * q` (lemma `qmulInt_eq_mul`); stated through `Rat.divInt` so
that it evaluates by kernel reduction. -/
def qmulInt (w : ℤ) (q : ℚ) : ℚ :=
  Rat.divInt (w * q.num) q.den

/-- Scale-to-fit of one image into an allotted region, lines 84-90 and 160-166
of `src/index.js`: `scale = Math.min(W / meta.width, H / meta.height)`, and the
resized dimensions are `Math.floor(meta.width * scale)` and
`Math.floor(meta.height * scale)`. -/
def layout (W H : ℤ) (img : Image) : ℤ × ℤ :=
  let widthScale : ℚ := Rat.divInt W img.width
  let heightScale : ℚ := Rat.divInt H img.height
  let scale : ℚ := min widthScale heightScale
  (Rat.floor (qmulInt img.width scale), Rat.floor (qmulInt img.height scale))

/-- `Math.floor((C - nw) / 2)`, the centering offset of a resized span `nw`
inside a canvas span `C` (lines 101-102 and 177 of `src/index.js`). -/
def centerOffset (C nw : ℤ) : ℤ :=
  Rat.floor (Rat.divInt (C - nw) 2)

/-- `const availableHeight = canvasHeight - (padding * (imageUrls.length + 1))`
with `canvasHeight = 1920` and `padding = 20` (line 151 of `src/index.js`). -/
def availableHeight (n : ℕ) : ℤ :=
  1920 - 20 * ((n : ℤ) + 1)

/-- `const heightPerImage = Math.floor(availableHeight / imageUrls.length)`
(line 152 of `src/index.js`). -/
def heightPerImage (n : ℕ) : ℤ :=
  Rat.floor (Rat.divInt (availableHeight n) (n : ℤ))

/-- Contract of `sharp(...).resize(newWidth, newHeight, ...)`: the library
throws `Expected positive integer for width` (resp. `height`) when handed a
non-positive target dimension, otherwise the resized image has exactly the
requested dimensions. -/
def resizeCheck (wh : ℤ × ℤ) : Except String (ℤ × ℤ) :=
  if wh.1 < 1 then .error "Expected positive integer for width"
  else if wh.2 < 1 then .error "Expected positive integer for height"
  else .ok wh

/-- Sequential effectful map over `Except`, the embedding of
`await Promise.all(xs.map(f))`: the first (in input order) failing element
aborts the whole batch with its error, otherwise the results are collected in
input order. -/
def mapE (f : α → Except String β) : List α → Except String (List β)
  | [] => .ok []
  | a :: as =>
    match f a with
    | .error e => .error e
    | .ok b =>
      match mapE f as with
      | .error e => .error e
      | .ok bs => .ok (b :: bs)

/-- The value of the mutable `yOffset` variable observed by input image `i`'s
callback (line 182, `top: yOffset`): `yOffset` starts at `padding = 20` and
each earlier-completing callback `j` added `newHeight_j + padding` to it, so
`i` sees `20` plus the sum of `resizedHeight_j + 20` over the indices `j`
listed before `i` in the completion order. -/
def yOffsetAt (heights : List ℤ) (order : List ℕ) (i : ℕ) : ℤ :=
  20 + ((order.takeWhile fun j => j ≠ i).map fun j => heights.getD j 0 + 20).sum

/-- One `{ input, left, top }` entry handed to `sharp`'s `composite`, together
with the dimensions the pasted buffer was resized to. -/
structure Placement where
  left : ℤ
  top : ℤ
  width : ℤ
  height : ℤ
  deriving DecidableEq

/-- The composited PNG the handler encodes: canvas dimensions and the
placements of the pasted images, in input order. -/
structure Png where
  canvasWidth : ℤ
  canvasHeight : ℤ
  placements : List Placement
  deriving DecidableEq

/-- A response body: an `{ error, message }` JSON object, the
`No images found to combine` JSON object, or a binary PNG. -/
inductive Body where
  | errorJson (error message : String)
  | noImages (scene_number : JSVal) (combined_image_url : Option String)
      (original_count : ℕ) (message : String)
  | png (image : Png)
  deriving DecidableEq

/-- An HTTP response: status code and body. -/
structure Response where
  status : ℕ
  body : Body
  deriving DecidableEq

/-- `res.status(500).json({ error: 'Processing error', message: error.message })`,
the catch-all of the handler (lines 221-227 of `src/index.js`). -/
def err500 (msg : String) : Response :=
  ⟨500, .errorJson "Processing error" msg⟩

/-- Lines 71-129 of `src/index.js`: fit the single downloaded image into the
1080x1920 canvas, centre it, and answer with the composited PNG. -/
def singleBranch (img : Image) : Response :=
  match resizeCheck (layout 1080 1920 img) with
  | .error e => err500 e
  | .ok wh =>
    ⟨200, .png ⟨1080, 1920,
      [⟨centerOffset 1080 wh.1, centerOffset 1920 wh.2, wh.1, wh.2⟩]⟩⟩

/-- Lines 132-211 of `src/index.js`: scale every downloaded image to fit
width `1080 - 2*20` and height `heightPerImage`, centre each horizontally, and
stack them at the `yOffset` values observed under the completion order
`order`. -/
def multiBranch (imgs : List Image) (order : List ℕ) : Response :=
  let hpi := heightPerImage imgs.length
  match mapE (fun img => resizeCheck (layout (1080 - 2 * 20) hpi img)) imgs with
  | .error e => err500 e
  | .ok sizes =>
    let heights := sizes.map Prod.snd
    let placements := (List.range sizes.length).map fun i =>
      let wh := sizes.getD i (0, 0)
      (⟨centerOffset 1080 wh.1, yOffsetAt heights order i, wh.1, wh.2⟩ : Placement)
    ⟨200, .png ⟨1080, 1920, placements⟩⟩

/-- The `POST /combine` handler (lines 46-228 of `src/index.js`).
`fetchImage` is the download-and-probe oracle and `order` the resize-completion
order of the multi-image branch (see the module docstring). -/
def combine (fetchImage : String → Except String Image) (scene_number : JSVal)
    (input : InputField) (order : List ℕ) : Response :=
  if truthy scene_number = false then
    ⟨400, .errorJson "Invalid input" "scene_number is required"⟩
  else
    match input with
    | .notArray => ⟨400, .errorJson "Invalid input" "input must be an array of visuals"⟩
    | .arr vs =>
      match imageUrls vs with
      | [] => ⟨200, .noImages scene_number none 0 "No images found to combine"⟩
      | [url] =>
        match fetchImage url with
        | .error e => err500 e
        | .ok img => singleBranch img
      | urls =>
        match mapE fetchImage urls with
        | .error e => err500 e
        | .ok imgs => multiBranch imgs order

/-! ## Bridge lemmas between the computable primitives and Mathlib's `ℚ` -/

theorem ratFloor_eq_floor (q : ℚ) : Rat.floor q = ⌊q⌋ := rfl

theorem divInt_eq_divCast (a b : ℤ) : Rat.divInt a b = (a : ℚ) / (b : ℚ) :=
  Rat.divInt_eq_div a b

theorem qmulInt_eq_mul (w : ℤ) (q : ℚ) : qmulInt w q = (w : ℚ) * q := by
  rw [qmulInt, divInt_eq_divCast]
  push_cast
  rw [mul_div_assoc, Rat.num_div_den]

theorem centerOffset_eq (C nw : ℤ) :
    centerOffset C nw = ⌊(((C - nw : ℤ) : ℚ)) / 2⌋ := by
  rw [centerOffset, ratFloor_eq_floor, divInt_eq_divCast]
  norm_num

theorem layout_eq (W H : ℤ) (img : Image) :
    layout W H img =
      (⌊(img.width : ℚ) * min ((W : ℚ) / (img.width : ℚ)) ((H : ℚ) / (img.height : ℚ))⌋,
       ⌊(img.height : ℚ) * min ((W : ℚ) / (img.width : ℚ)) ((H : ℚ) / (img.height : ℚ))⌋) := by
  rw [layout]
  simp only [qmulInt_eq_mul, ratFloor_eq_floor, divInt_eq_divCast]

theorem heightPerImage_eq (n : ℕ) :
    heightPerImage n = ⌊((availableHeight n : ℤ) : ℚ) / ((n : ℤ) : ℚ)⌋ := by
  rw [heightPerImage, ratFloor_eq_floor, divInt_eq_divCast]

theorem heightPerImage_ediv (n : ℕ) :
    heightPerImage n = availableHeight n / (n : ℤ) := by
  rw [heightPerImage_eq]
  rw [show (((n : ℤ)) : ℚ) = ((n : ℕ) : ℚ) by push_cast; ring]
  exact Rat.floor_intCast_div_natCast (availableHeight n) n

/-! ## Arithmetic facts about the layout computation -/

theorem layout_fst_le (W H : ℤ) (img : Image) (hw : 0 < img.width) :
    (layout W H img).1 ≤ W := by
  rw [layout_eq]
  have hw' : ((img.width : ℚ)) ≠ 0 := by
    exact_mod_cast hw.ne'
  calc ⌊(img.width : ℚ) * min ((W : ℚ) / (img.width : ℚ)) ((H : ℚ) / (img.height : ℚ))⌋
      ≤ ⌊(img.width : ℚ) * ((W : ℚ) / (img.width : ℚ))⌋ := by
        apply Int.floor_le_floor
        apply mul_le_mul_of_nonneg_left (min_le_left _ _)
        exact_mod_cast hw.le
    _ = W := by
        rw [mul_comm, div_mul_cancel₀ _ hw']
        exact Int.floor_intCast W

theorem layout_snd_le (W H : ℤ) (img : Image) (hh : 0 < img.height) :
    (layout W H img).2 ≤ H := by
  rw [layout_eq]
  have hh' : ((img.height : ℚ)) ≠ 0 := by
    exact_mod_cast hh.ne'
  calc ⌊(img.height : ℚ) * min ((W : ℚ) / (img.width : ℚ)) ((H : ℚ) / (img.height : ℚ))⌋
      ≤ ⌊(img.height : ℚ) * ((H : ℚ) / (img.height : ℚ))⌋ := by
        apply Int.floor_le_floor
        apply mul_le_mul_of_nonneg_left (min_le_right _ _)
        exact_mod_cast hh.le
    _ = H := by
        rw [mul_comm, div_mul_cancel₀ _ hh']
        exact Int.floor_intCast H

theorem centerOffset_bounds (C nw : ℤ) (h : nw ≤ C) :
    0 ≤ centerOffset C nw ∧ centerOffset C nw + nw ≤ C := by
  rw [centerOffset_eq]
  have h0 : (0 : ℚ) ≤ ((C - nw : ℤ) : ℚ) := by
    exact_mod_cast sub_nonneg.mpr h
  constructor
  · apply Int.le_floor.mpr
    push_cast
    push_cast at h0
    linarith
  · have h1 : ⌊(((C - nw : ℤ)) : ℚ) / 2⌋ ≤ ⌊(((C - nw : ℤ)) : ℚ)⌋ :=
      Int.floor_le_floor (half_le_self h0)
    rw [Int.floor_intCast] at h1
    omega

theorem resizeCheck_ok {wh wh' : ℤ × ℤ} (h : resizeCheck wh = .ok wh') :
    wh' = wh ∧ 1 ≤ wh.1 ∧ 1 ≤ wh.2 := by
  rw [resizeCheck] at h
  by_cases h1 : wh.1 < 1
  · simp [h1] at h
  · by_cases h2 : wh.2 < 1
    · simp [h1, h2] at h
    · simp [h1, h2] at h
      exact ⟨h.symm, by omega, by omega⟩

theorem mul_heightPerImage_le (n : ℕ) (hn : 0 < n) :
    (n : ℤ) * heightPerImage n ≤ availableHeight n := by
  rw [heightPerImage_ediv]
  have hn' : ((n : ℤ)) ≠ 0 := by exact_mod_cast hn.ne'
  have h1 : 0 ≤ availableHeight n % (n : ℤ) := Int.emod_nonneg _ hn'
  have h2 : availableHeight n % (n : ℤ)
      = availableHeight n - (n : ℤ) * (availableHeight n / (n : ℤ)) :=
    Int.emod_def _ _
  linarith

/-! ## Claim C1 -/

/-- Claim C1, counterexample: at `N = 3` image URLs, `heightPerImage = 613` and
`3 * 613 + 20 * 4 = 1919`, not the canvas height `1920`: the floor in
`Math.floor(availableHeight / imageUrls.length)` drops the remainder. -/
theorem claim1_counterexample :
    ¬ ((3 : ℤ) * heightPerImage 3 + 20 * ((3 : ℤ) + 1) = 1920) := by decide

/-- Claim C1 as amended: for every `N ≥ 2`, the sum of the per-image allotted
vertical spans (`N` times `heightPerImage`) plus all padding gaps
(`20 * (N + 1)`) equals the canvas height `1920` minus the remainder
`(1920 - 20 * (N + 1)) mod N`; in particular the sum is at most `1920`, with
equality exactly when `N` divides `1920 - 20 * (N + 1)`. -/
theorem claim1_spans_plus_padding (n : ℕ) (hn : 2 ≤ n) :
    (n : ℤ) * heightPerImage n + 20 * ((n : ℤ) + 1)
        = 1920 - availableHeight n % (n : ℤ)
    ∧ (n : ℤ) * heightPerImage n + 20 * ((n : ℤ) + 1) ≤ 1920
    ∧ ((n : ℤ) * heightPerImage n + 20 * ((n : ℤ) + 1) = 1920
        ↔ (n : ℤ) ∣ availableHeight n) := by
  have hn' : ((n : ℤ)) ≠ 0 := by
    have : 0 < n := by omega
    exact_mod_cast this.ne'
  have havail : availableHeight n = 1920 - 20 * ((n : ℤ) + 1) := rfl
  have h2 : availableHeight n % (n : ℤ)
      = availableHeight n - (n : ℤ) * (availableHeight n / (n : ℤ)) :=
    Int.emod_def _ _
  have h1 : 0 ≤ availableHeight n % (n : ℤ) := Int.emod_nonneg _ hn'
  have hmain : (n : ℤ) * heightPerImage n + 20 * ((n : ℤ) + 1)
      = 1920 - availableHeight n % (n : ℤ) := by
    rw [heightPerImage_ediv]
    omega
  refine ⟨hmain, by omega, ?_⟩
  rw [hmain]
  rw [Int.dvd_iff_emod_eq_zero]
  omega

/-- Witness for `claim1_spans_plus_padding` at `N = 3`: the spans-plus-padding
sum is `1920 - 1 = 1919` there. -/
theorem claim1_spans_plus_padding_witness :
    (3 : ℤ) * heightPerImage 3 + 20 * ((3 : ℤ) + 1)
        = 1920 - availableHeight 3 % (3 : ℤ)
    ∧ (3 : ℤ) * heightPerImage 3 + 20 * ((3 : ℤ) + 1) ≤ 1920
    ∧ ((3 : ℤ) * heightPerImage 3 + 20 * ((3 : ℤ) + 1) = 1920
        ↔ (3 : ℤ) ∣ availableHeight 3) :=
  claim1_spans_plus_padding 3 (by decide)

/-! ## Claim C5 -/

/-- Claim C5: with a truthy `scene_number` and an input array yielding zero
image URLs, the handler answers status 200 with the JSON body carrying the
scene number, a null `combined_image_url`, `original_count: 0` and the message
`No images found to combine` (lines 213-219 of `src/index.js`). -/
theorem claim5_no_images (fetchImage : String → Except String Image)
    (sn : JSVal) (vs : List Visual) (order : List ℕ)
    (hsn : truthy sn = true) (hvs : imageUrls vs = []) :
    combine fetchImage sn (.arr vs) order
      = ⟨200, .noImages sn none 0 "No images found to combine"⟩ := by
  simp [combine, hsn, hvs]

/-- Witness for `claim5_no_images`: two visuals, one with an absent URL and one
with an empty-string URL, yield the no-images JSON. -/
theorem claim5_no_images_witness :
    combine (fun _ => .error "unreachable") (.vnum 7)
        (.arr [⟨none⟩, ⟨some ""⟩]) []
      = ⟨200, .noImages (.vnum 7) none 0 "No images found to combine"⟩ :=
  claim5_no_images _ _ _ _ (by decide) (by decide)

/-! ## Claim C6 -/

/-- Claim C6: with a truthy `scene_number` and a non-array `input` field
(missing, or any non-array value), the handler answers status 400 with
`error: 'Invalid input'` and `message: 'input must be an array of visuals'`;
the response does not depend on the download oracle or on any schedule, so no
image is downloaded or composited (lines 58-63 of `src/index.js`). -/
theorem claim6_input_not_array (fetchImage fetchImage' : String → Except String Image)
    (sn : JSVal) (order order' : List ℕ) (hsn : truthy sn = true) :
    combine fetchImage sn .notArray order
        = ⟨400, .errorJson "Invalid input" "input must be an array of visuals"⟩
    ∧ combine fetchImage sn .notArray order
        = combine fetchImage' sn .notArray order' := by
  constructor <;> simp [combine, hsn]

/-- Witness for `claim6_input_not_array` with `scene_number = 5`. -/
theorem claim6_input_not_array_witness :
    combine (fun _ => .error "net down") (.vnum 5) .notArray []
        = ⟨400, .errorJson "Invalid input" "input must be an array of visuals"⟩
    ∧ combine (fun _ => .error "net down") (.vnum 5) .notArray []
        = combine (fun _ => .ok ⟨9, 9⟩) (.vnum 5) .notArray [0] :=
  claim6_input_not_array _ _ _ _ _ (by decide)

/-! ## Claim C8 -/

/-- Claim C8: a present but falsy `scene_number` (for example the number `0`,
the empty string, `false`, or `null`) fails the `if (!scene_number)` check, so
the handler answers status 400 with `message: 'scene_number is required'`
regardless of the rest of the body (lines 51-56 of `src/index.js`). -/
theorem claim8_falsy_scene_number (fetchImage : String → Except String Image)
    (sn : JSVal) (input : InputField) (order : List ℕ)
    (hsn : truthy sn = false) :
    combine fetchImage sn input order
        = ⟨400, .errorJson "Invalid input" "scene_number is required"⟩
    ∧ truthy (.vnum 0) = false ∧ truthy (.vstr "") = false
    ∧ truthy (.vbool false) = false ∧ truthy .vnull = false := by
  refine ⟨?_, by decide, by decide, by decide, by decide⟩
  simp [combine, hsn]

/-- Witness for `claim8_falsy_scene_number` at `scene_number = 0` with a
well-formed array body: the request is still rejected. -/
theorem claim8_falsy_scene_number_witness :
    combine (fun _ => .ok ⟨100, 100⟩) (.vnum 0) (.arr [⟨some "u"⟩]) []
        = ⟨400, .errorJson "Invalid input" "scene_number is required"⟩
    ∧ truthy (.vnum 0) = false ∧ truthy (.vstr "") = false
    ∧ truthy (.vbool false) = false ∧ truthy .vnull = false :=
  claim8_falsy_scene_number _ _ _ _ (by decide)

/-! ## Claim C4 -/

/-- Claim C4, evaluated: with two visuals whose images decode to 1000x1000 and
1000x500, completion of the resizes in input order (`[0, 1]`) produces the
claimed cumulative tops `20` and `20 + 930 + 20 = 970`; but when the second
image's resize completes first (`[1, 0]`), input image 0 is composited at top
`20 + (520 + 20) = 560` and input image 1 at top `20`, not the claimed
input-order offsets: the mutable `yOffset` is read in completion order. -/
theorem claim4_completion_order_bug :
    combine (fun u => if u = "u1" then .ok ⟨1000, 1000⟩ else .ok ⟨1000, 500⟩)
        (.vnum 1) (.arr [⟨some "u1"⟩, ⟨some "u2"⟩]) [0, 1]
      = ⟨200, .png ⟨1080, 1920, [⟨75, 20, 930, 930⟩, ⟨20, 970, 1040, 520⟩]⟩⟩
    ∧ combine (fun u => if u = "u1" then .ok ⟨1000, 1000⟩ else .ok ⟨1000, 500⟩)
        (.vnum 1) (.arr [⟨some "u1"⟩, ⟨some "u2"⟩]) [1, 0]
      = ⟨200, .png ⟨1080, 1920, [⟨75, 560, 930, 930⟩, ⟨20, 20, 1040, 520⟩]⟩⟩
    ∧ (560 : ℤ) ≠ 20 :=
  ⟨by decide, by decide, by decide⟩

/-! ## Claim C2 -/

/-- Claim C2, counterexample: a 1x100000 image downloads and decodes fine, but
its scale-to-fit width is `Math.floor(1 * (1920/100000)) = 0`, `sharp`'s
`resize` rejects the non-positive width, and the handler answers a 500 JSON
error instead of the claimed PNG. -/
theorem claim2_counterexample :
    combine (fun _ => .ok ⟨1, 100000⟩) (.vnum 1) (.arr [⟨some "u"⟩]) []
        = ⟨500, .errorJson "Processing error" "Expected positive integer for width"⟩
    ∧ (500 : ℕ) ≠ 200 :=
  ⟨by decide, by decide⟩

/-- Claim C2 as amended: with a truthy `scene_number`, exactly one extracted
image URL whose download and decode succeed, and both computed resized
dimensions at least 1 (so that `sharp`'s `resize` accepts them), the response
is status 200 with a PNG on a 1080x1920 canvas whose single image is placed at
left `Math.floor((1080 - newWidth) / 2)` and top
`Math.floor((1920 - newHeight) / 2)` (lines 71-128 of `src/index.js`). -/
theorem claim2_single_centered (fetchImage : String → Except String Image)
    (sn : JSVal) (vs : List Visual) (order : List ℕ) (u : String) (img : Image)
    (hsn : truthy sn = true) (hurls : imageUrls vs = [u])
    (hfetch : fetchImage u = .ok img)
    (hnw : 1 ≤ (layout 1080 1920 img).1) (hnh : 1 ≤ (layout 1080 1920 img).2) :
    combine fetchImage sn (.arr vs) order
      = ⟨200, .png ⟨1080, 1920,
          [⟨centerOffset 1080 (layout 1080 1920 img).1,
            centerOffset 1920 (layout 1080 1920 img).2,
            (layout 1080 1920 img).1, (layout 1080 1920 img).2⟩]⟩⟩ := by
  have h1 : ¬ (layout 1080 1920 img).1 < 1 := by omega
  have h2 : ¬ (layout 1080 1920 img).2 < 1 := by omega
  simp [combine, hsn, hurls, hfetch, singleBranch, resizeCheck, h1, h2]

/-- Witness for `claim2_single_centered`: a 1080x1920 image is not scaled down
and lands at offset (0, 0). -/
theorem claim2_single_centered_witness :
    combine (fun _ => .ok ⟨1080, 1920⟩) (.vnum 2) (.arr [⟨some "u"⟩]) []
      = ⟨200, .png ⟨1080, 1920,
          [⟨centerOffset 1080 (layout 1080 1920 ⟨1080, 1920⟩).1,
            centerOffset 1920 (layout 1080 1920 ⟨1080, 1920⟩).2,
            (layout 1080 1920 ⟨1080, 1920⟩).1, (layout 1080 1920 ⟨1080, 1920⟩).2⟩]⟩⟩ :=
  claim2_single_centered (fun _ => .ok ⟨1080, 1920⟩) (.vnum 2) [⟨some "u"⟩] [] "u"
    ⟨1080, 1920⟩ (by decide) (by decide) rfl (by decide) (by decide)

/-! ## Claim C3 -/

/-- Claim C3: for an image with positive pixel dimensions and an allotted
region `W x H`, the computed scale factor is `min (W / w) (H / h)`, the resized
dimensions are the floors of `w * scale` and `h * scale` (so the aspect ratio
is preserved up to the floor rounding, both dimensions being scaled by the same
factor), and consequently the resized image fits in the region:
`newWidth ≤ W` and `newHeight ≤ H`.  The handler applies this with
`W = 1080, H = 1920` in the single-image branch (`singleBranch`) and with
`W = 1080 - 2*20, H = heightPerImage` in the multi-image branch
(`multiBranch`). -/
theorem claim3_scale_to_fit (W H : ℤ) (img : Image)
    (hw : 0 < img.width) (hh : 0 < img.height) :
    layout W H img
        = (⌊(img.width : ℚ) * min ((W : ℚ) / (img.width : ℚ)) ((H : ℚ) / (img.height : ℚ))⌋,
           ⌊(img.height : ℚ) * min ((W : ℚ) / (img.width : ℚ)) ((H : ℚ) / (img.height : ℚ))⌋)
    ∧ (layout W H img).1 ≤ W ∧ (layout W H img).2 ≤ H :=
  ⟨layout_eq W H img, layout_fst_le W H img hw, layout_snd_le W H img hh⟩

/-- Witness for `claim3_scale_to_fit` on a 1000x500 image in the multi-image
region for two images (1040 wide, `heightPerImage 2 = 930` tall). -/
theorem claim3_scale_to_fit_witness :
    (layout 1040 (heightPerImage 2) ⟨1000, 500⟩
        = (⌊((1000 : ℤ) : ℚ) * min (((1040 : ℤ) : ℚ) / ((1000 : ℤ) : ℚ))
              (((heightPerImage 2 : ℤ) : ℚ) / ((500 : ℤ) : ℚ))⌋,
           ⌊((500 : ℤ) : ℚ) * min (((1040 : ℤ) : ℚ) / ((1000 : ℤ) : ℚ))
              (((heightPerImage 2 : ℤ) : ℚ) / ((500 : ℤ) : ℚ))⌋)
    ∧ (layout 1040 (heightPerImage 2) ⟨1000, 500⟩).1 ≤ 1040
    ∧ (layout 1040 (heightPerImage 2) ⟨1000, 500⟩).2 ≤ heightPerImage 2) :=
  claim3_scale_to_fit 1040 (heightPerImage 2) ⟨1000, 500⟩ (by decide) (by decide)

/-! ## Facts about `mapE` (the embedding of `Promise.all`) -/

theorem mapE_error_of_first {α β : Type} {f : α → Except String β} (l : List α)
    (k : ℕ) (e : String) (da : α) (hk : k < l.length)
    (hfail : f (l.getD k da) = .error e)
    (hbefore : ∀ j, j < k → ∃ b, f (l.getD j da) = .ok b) :
    mapE f l = .error e := by
  induction l generalizing k with
  | nil => simp at hk
  | cons a as ih =>
    cases k with
    | zero =>
      simp only [List.getD_cons_zero] at hfail
      simp [mapE, hfail]
    | succ k =>
      obtain ⟨b, hb⟩ := hbefore 0 (Nat.succ_pos k)
      simp only [List.getD_cons_zero] at hb
      have hrest : mapE f as = .error e := by
        apply ih k
        · simpa using hk
        · simpa using hfail
        · intro j hj
          have := hbefore (j + 1) (by omega)
          simpa using this
      simp [mapE, hb, hrest]

theorem mapE_ok_length {α β : Type} {f : α → Except String β} {l : List α}
    {bs : List β} (h : mapE f l = .ok bs) : bs.length = l.length := by
  induction l generalizing bs with
  | nil =>
    simp only [mapE] at h
    cases h
    rfl
  | cons a as ih =>
    simp only [mapE] at h
    cases hfa : f a with
    | error e => rw [hfa] at h; cases h
    | ok b =>
      rw [hfa] at h
      cases hrest : mapE f as with
      | error e => rw [hrest] at h; cases h
      | ok bs' =>
        rw [hrest] at h
        cases h
        simp [ih hrest]

theorem mapE_ok_getD {α β : Type} {f : α → Except String β} {l : List α}
    {bs : List β} (da : α) (db : β) (h : mapE f l = .ok bs) :
    ∀ i, i < l.length → f (l.getD i da) = .ok (bs.getD i db) := by
  induction l generalizing bs with
  | nil => intro i hi; simp at hi
  | cons a as ih =>
    simp only [mapE] at h
    cases hfa : f a with
    | error e => rw [hfa] at h; cases h
    | ok b =>
      rw [hfa] at h
      cases hrest : mapE f as with
      | error e => rw [hrest] at h; cases h
      | ok bs' =>
        rw [hrest] at h
        cases h
        intro i hi
        cases i with
        | zero => simpa using hfa
        | succ i =>
          simp only [List.getD_cons_succ]
          exact ih hrest i (by simpa using hi)

/-! ## Claim C7 -/

/-- Claim C7: once validation passes, if the download or decode of the `k`-th
extracted image URL fails with error message `e` (and the earlier ones
succeed, matching `Promise.all`'s first-rejection semantics), the whole
request answers a single status-500 JSON response whose `message` is `e`
verbatim — no retry, no partial image result (lines 221-227 of
`src/index.js`). -/
theorem claim7_download_failure_aborts (fetchImage : String → Except String Image)
    (sn : JSVal) (vs : List Visual) (order : List ℕ) (k : ℕ) (e : String)
    (hsn : truthy sn = true) (hk : k < (imageUrls vs).length)
    (hfail : fetchImage ((imageUrls vs).getD k "") = .error e)
    (hbefore : ∀ j, j < k → ∃ img, fetchImage ((imageUrls vs).getD j "") = .ok img) :
    combine fetchImage sn (.arr vs) order
      = ⟨500, .errorJson "Processing error" e⟩ := by
  have hmap : mapE fetchImage (imageUrls vs) = .error e :=
    mapE_error_of_first (imageUrls vs) k e "" hk hfail hbefore
  cases hurls : imageUrls vs with
  | nil => rw [hurls] at hk; simp at hk
  | cons u rest =>
    cases rest with
    | nil =>
      rw [hurls] at hk hfail
      have hk0 : k = 0 := by simp at hk; omega
      subst hk0
      have hu : fetchImage u = .error e := by simpa using hfail
      simp [combine, hsn, hurls, hu, err500]
    | cons u2 rest2 =>
      rw [hurls] at hmap
      simp [combine, hsn, hurls, hmap, err500]

/-- Witness for `claim7_download_failure_aborts`: the second of two downloads
fails with message `connect ETIMEDOUT`, and the response passes it through in
a 500. -/
theorem claim7_download_failure_aborts_witness :
    combine (fun u => if u = "a" then .ok ⟨10, 10⟩ else .error "connect ETIMEDOUT")
        (.vnum 3) (.arr [⟨some "a"⟩, ⟨some "b"⟩]) [0, 1]
      = ⟨500, .errorJson "Processing error" "connect ETIMEDOUT"⟩ :=
  claim7_download_failure_aborts
    (fun u => if u = "a" then .ok ⟨10, 10⟩ else .error "connect ETIMEDOUT")
    (.vnum 3) [⟨some "a"⟩, ⟨some "b"⟩] [0, 1] 1 "connect ETIMEDOUT"
    (by decide) (by decide) rfl
    (fun j hj => ⟨⟨10, 10⟩, by interval_cases j; rfl⟩)

/-! ## Claim C10 -/

theorem imageUrls_eq_filterMap (vs : List Visual) :
    imageUrls vs
      = vs.filterMap (fun v => v.uploaded_image_url.bind
          fun s => if s = "" then none else some s) := by
  induction vs with
  | nil => rfl
  | cons v t ih =>
    simp only [imageUrls, List.filter_cons] at ih ⊢
    rw [List.filterMap_cons]
    cases hv : v.uploaded_image_url with
    | none =>
      simp [hv, show urlTruthy none = false from rfl, ih]
    | some s =>
      by_cases hs : s = ""
      · simp [hv, hs, show urlTruthy (some "") = false from rfl, ih]
      · have hvt : urlTruthy (some s) = true := by
          simpa [urlTruthy] using hs
        simp [hv, hs, hvt, ih]

/-- Claim C10: the processed URL list is exactly the `uploaded_image_url`
values of the visuals whose field is truthy, in input order — visuals with an
absent, null or empty-string URL are silently skipped (lines 65-68 of
`src/index.js`) — and the handler's behaviour depends on the input array only
through that filtered list, whose length selects among the `N = 0`, `N = 1`
and `N > 1` branches. -/
theorem claim10_url_filtering (vs vs' : List Visual)
    (fetchImage : String → Except String Image) (sn : JSVal) (order : List ℕ)
    (hsn : truthy sn = true) (hsame : imageUrls vs = imageUrls vs') :
    imageUrls vs
        = vs.filterMap (fun v => v.uploaded_image_url.bind
            fun s => if s = "" then none else some s)
    ∧ combine fetchImage sn (.arr vs) order
        = combine fetchImage sn (.arr vs') order := by
  refine ⟨imageUrls_eq_filterMap vs, ?_⟩
  simp only [combine, hsn, hsame]

/-- Witness for `claim10_url_filtering`: `[absent, "", "a", "b"]` filters to
`["a", "b"]`, and the request behaves exactly like one whose input is just the
two visuals carrying `"a"` and `"b"`. -/
theorem claim10_url_filtering_witness :
    imageUrls [⟨none⟩, ⟨some ""⟩, ⟨some "a"⟩, ⟨some "b"⟩]
        = List.filterMap (fun v : Visual => v.uploaded_image_url.bind
            fun s => if s = "" then none else some s)
            [⟨none⟩, ⟨some ""⟩, ⟨some "a"⟩, ⟨some "b"⟩]
    ∧ combine (fun _ => .ok ⟨800, 600⟩) (.vnum 4)
          (.arr [⟨none⟩, ⟨some ""⟩, ⟨some "a"⟩, ⟨some "b"⟩]) [0, 1]
        = combine (fun _ => .ok ⟨800, 600⟩) (.vnum 4)
            (.arr [⟨some "a"⟩, ⟨some "b"⟩]) [0, 1] :=
  claim10_url_filtering [⟨none⟩, ⟨some ""⟩, ⟨some "a"⟩, ⟨some "b"⟩]
    [⟨some "a"⟩, ⟨some "b"⟩] (fun _ => .ok ⟨800, 600⟩) (.vnum 4) [0, 1]
    (by decide) (by decide)

/-! ## Claim C9: every composited image lies within the canvas -/

theorem getD_eq_getElem_of_lt {α : Type} (l : List α) (d : α) {i : ℕ}
    (h : i < l.length) : l.getD i d = l[i] := by
  simp [List.getD_eq_getElem?_getD, List.getElem?_eq_getElem h]

theorem getD_eq_dflt {α : Type} (l : List α) (d : α) {i : ℕ}
    (h : l.length ≤ i) : l.getD i d = d := by
  simp [List.getD_eq_getElem?_getD, List.getElem?_eq_none h]

theorem getD_int_nonneg {l : List ℤ} (hl : ∀ x ∈ l, 0 ≤ x) (j : ℕ) :
    0 ≤ l.getD j 0 := by
  by_cases h : j < l.length
  · rw [getD_eq_getElem_of_lt l 0 h]
    exact hl _ (List.getElem_mem h)
  · rw [getD_eq_dflt l 0 (by omega)]

theorem yOffsetAt_cons_self (heights : List ℤ) (rest : List ℕ) (i : ℕ) :
    yOffsetAt heights (i :: rest) i = 20 := by
  simp [yOffsetAt]

theorem yOffsetAt_cons_ne (heights : List ℤ) (rest : List ℕ) (a i : ℕ)
    (ha : a ≠ i) :
    yOffsetAt heights (a :: rest) i
      = (heights.getD a 0 + 20) + yOffsetAt heights rest i := by
  simp only [yOffsetAt, List.takeWhile_cons, ha, decide_not, decide_eq_true_eq]
  simp [ha]
  ring

theorem yOffsetAt_lower (heights : List ℤ) (order : List ℕ) (i : ℕ)
    (hpos : ∀ x ∈ heights, 0 ≤ x) : 20 ≤ yOffsetAt heights order i := by
  rw [yOffsetAt]
  have h : 0 ≤ ((order.takeWhile fun j => j ≠ i).map fun j => heights.getD j 0 + 20).sum := by
    apply List.sum_nonneg
    intro x hx
    obtain ⟨j, hj, rfl⟩ := List.mem_map.mp hx
    have := getD_int_nonneg hpos j
    omega
  omega

theorem yOffsetAt_add_le (heights : List ℤ) (order : List ℕ) (i : ℕ)
    (hi : i ∈ order) (hpos : ∀ x ∈ heights, 0 ≤ x) :
    yOffsetAt heights order i + heights.getD i 0
      ≤ (order.map fun j => heights.getD j 0 + 20).sum := by
  induction order with
  | nil => simp at hi
  | cons a rest ih =>
    by_cases ha : a = i
    · subst ha
      rw [yOffsetAt_cons_self]
      simp only [List.map_cons, List.sum_cons]
      have hrest : 0 ≤ (rest.map fun j => heights.getD j 0 + 20).sum := by
        apply List.sum_nonneg
        intro x hx
        obtain ⟨j, hj, rfl⟩ := List.mem_map.mp hx
        have := getD_int_nonneg hpos j
        omega
      omega
    · have hi' : i ∈ rest := by
        rcases List.mem_cons.mp hi with h | h
        · exact absurd h.symm ha
        · exact h
      rw [yOffsetAt_cons_ne heights rest a i ha]
      simp only [List.map_cons, List.sum_cons]
      have := ih hi'
      omega

theorem sum_map_range_le (n : ℕ) (heights : List ℤ) (c : ℤ)
    (hlen : heights.length = n) (hband : ∀ x ∈ heights, x ≤ c) :
    ((List.range n).map fun j => heights.getD j 0 + 20).sum ≤ (n : ℤ) * (c + 20) := by
  have h1 : ((List.range n).map fun j => heights.getD j 0 + 20).sum
      ≤ ((List.range n).map fun _ => c + 20).sum := by
    apply List.sum_le_sum
    intro j hj
    rw [List.mem_range] at hj
    have hjl : j < heights.length := by omega
    rw [getD_eq_getElem_of_lt heights 0 hjl]
    have := hband _ (List.getElem_mem hjl)
    omega
  have h2 : ((List.range n).map fun _ => c + 20).sum = (n : ℤ) * (c + 20) := by
    rw [List.map_const', List.sum_replicate, List.length_range]
    simp only [nsmul_eq_mul]
  rw [h2] at h1
  exact h1

theorem multiBranch_within (imgs : List Image) (order : List ℕ) (png : Png)
    (hperm : order.Perm (List.range imgs.length))
    (hdims : ∀ img ∈ imgs, 0 < img.width ∧ 0 < img.height)
    (hpng : (multiBranch imgs order).body = .png png) :
    png.canvasWidth = 1080 ∧ png.canvasHeight = 1920 ∧
      ∀ p ∈ png.placements, 0 ≤ p.left ∧ 0 ≤ p.top ∧
        p.left + p.width ≤ 1080 ∧ p.top + p.height ≤ 1920 := by
  simp only [multiBranch] at hpng
  cases hsizes : mapE
      (fun img => resizeCheck (layout (1080 - 2 * 20) (heightPerImage imgs.length) img))
      imgs with
  | error e =>
    rw [hsizes] at hpng
    simp [err500] at hpng
  | ok sizes =>
    rw [hsizes] at hpng
    simp only [Body.png.injEq] at hpng
    subst hpng
    refine ⟨rfl, rfl, ?_⟩
    intro p hp
    simp only [List.mem_map, List.mem_range] at hp
    obtain ⟨i, hi, rfl⟩ := hp
    dsimp only
    have hlen : sizes.length = imgs.length := mapE_ok_length hsizes
    have hnpos : 0 < imgs.length := by omega
    -- facts about the i-th resized dimensions, for every valid index
    have hidx : ∀ j, j < imgs.length →
        sizes.getD j (0, 0) = layout (1080 - 2 * 20) (heightPerImage imgs.length)
            (imgs.getD j ⟨1, 1⟩)
        ∧ 1 ≤ (sizes.getD j (0, 0)).1 ∧ 1 ≤ (sizes.getD j (0, 0)).2 := by
      intro j hj
      have h := mapE_ok_getD (⟨1, 1⟩ : Image) ((0, 0) : ℤ × ℤ) hsizes j hj
      have := resizeCheck_ok h
      exact ⟨this.1, this.1 ▸ this.2.1, this.1 ▸ this.2.2⟩
    have hdimsD : ∀ j, j < imgs.length →
        0 < (imgs.getD j (⟨1, 1⟩ : Image)).width ∧ 0 < (imgs.getD j (⟨1, 1⟩ : Image)).height := by
      intro j hj
      rw [getD_eq_getElem_of_lt imgs ⟨1, 1⟩ hj]
      exact hdims _ (List.getElem_mem hj)
    -- bounds on the recorded heights
    have hhgt : ∀ j, j < imgs.length →
        (sizes.map Prod.snd).getD j 0 = (sizes.getD j (0, 0)).2 := by
      intro j hj
      rw [getD_eq_getElem_of_lt (sizes.map Prod.snd) 0 (by simp; omega),
        getD_eq_getElem_of_lt sizes (0, 0) (by omega), List.getElem_map]
    have hpos : ∀ x ∈ sizes.map Prod.snd, 0 ≤ x := by
      intro x hx
      obtain ⟨s, hs, rfl⟩ := List.mem_map.mp hx
      obtain ⟨j, hj, rfl⟩ := List.mem_iff_getElem.mp hs
      have h2 := (hidx j (by omega)).2.2
      rw [getD_eq_getElem_of_lt sizes (0, 0) hj] at h2
      omega
    have hband : ∀ x ∈ sizes.map Prod.snd, x ≤ heightPerImage imgs.length := by
      intro x hx
      obtain ⟨s, hs, rfl⟩ := List.mem_map.mp hx
      obtain ⟨j, hj, rfl⟩ := List.mem_iff_getElem.mp hs
      have h1 := (hidx j (by omega)).1
      rw [getD_eq_getElem_of_lt sizes (0, 0) hj] at h1
      rw [h1]
      exact layout_snd_le _ _ _ (hdimsD j (by omega)).2
    -- the i-th placement
    have hw1 : (sizes.getD i (0, 0)).1 ≤ 1080 - 2 * 20 := by
      rw [(hidx i (by omega)).1]
      exact layout_fst_le _ _ _ (hdimsD i (by omega)).1
    have hco := centerOffset_bounds 1080 (sizes.getD i (0, 0)).1 (by omega)
    have htop := yOffsetAt_lower (sizes.map Prod.snd) order i hpos
    have hmem : i ∈ order := (hperm.mem_iff).mpr (List.mem_range.mpr (by omega))
    have hadd := yOffsetAt_add_le (sizes.map Prod.snd) order i hmem hpos
    have hsum : ((order.map fun j => (sizes.map Prod.snd).getD j 0 + 20).sum)
        = (((List.range imgs.length).map fun j => (sizes.map Prod.snd).getD j 0 + 20).sum) :=
      (hperm.map _).sum_eq
    have hrange := sum_map_range_le imgs.length (sizes.map Prod.snd)
      (heightPerImage imgs.length) (by simp [hlen]) hband
    have hmul := mul_heightPerImage_le imgs.length hnpos
    have havail : availableHeight imgs.length
        = 1920 - 20 * ((imgs.length : ℤ) + 1) := rfl
    have hexp : ((imgs.length : ℤ)) * (heightPerImage imgs.length + 20)
        = (imgs.length : ℤ) * heightPerImage imgs.length + 20 * (imgs.length : ℤ) := by
      ring
    have hgd := hhgt i (by omega)
    refine ⟨hco.1, by omega, ?_, ?_⟩
    · have := hco.2
      omega
    · rw [hsum] at hadd
      rw [hgd] at hadd
      have h22 := (hidx i (by omega)).2.2
      omega

/-- Claim C9: whenever a `/combine` request produces a composited PNG (any
number of images, every download and decode succeeded, every source image has
positive pixel dimensions, and `order` — the resize-completion order — is a
permutation of the image indices), the canvas is 1080x1920 and every composited
image lies entirely within it: non-negative offsets, `left + width ≤ 1080` and
`top + height ≤ 1920`. -/
theorem claim9_placements_within_canvas (fetchImage : String → Except String Image)
    (sn : JSVal) (vs : List Visual) (order : List ℕ) (png : Png)
    (hperm : order.Perm (List.range (imageUrls vs).length))
    (hdims : ∀ url ∈ imageUrls vs, ∀ img, fetchImage url = .ok img →
        0 < img.width ∧ 0 < img.height)
    (hpng : (combine fetchImage sn (.arr vs) order).body = .png png) :
    png.canvasWidth = 1080 ∧ png.canvasHeight = 1920 ∧
      ∀ p ∈ png.placements, 0 ≤ p.left ∧ 0 ≤ p.top ∧
        p.left + p.width ≤ 1080 ∧ p.top + p.height ≤ 1920 := by
  rw [combine] at hpng
  by_cases hsn : truthy sn = false
  · rw [if_pos hsn] at hpng
    simp at hpng
  · rw [if_neg hsn] at hpng
    cases hurls : imageUrls vs with
    | nil =>
      rw [hurls] at hpng
      simp at hpng
    | cons u rest =>
      cases rest with
      | nil =>
        -- single-image branch
        rw [hurls] at hpng
        simp only at hpng
        cases hfu : fetchImage u with
        | error e =>
          rw [hfu] at hpng
          simp [err500] at hpng
        | ok img =>
          rw [hfu] at hpng
          simp only [singleBranch] at hpng
          cases hrc : resizeCheck (layout 1080 1920 img) with
          | error e =>
            rw [hrc] at hpng
            simp [err500] at hpng
          | ok wh =>
            rw [hrc] at hpng
            simp only [Body.png.injEq] at hpng
            subst hpng
            obtain ⟨hwh, h1, h2⟩ := resizeCheck_ok hrc
            subst hwh
            have hu : u ∈ imageUrls vs := by
              rw [hurls]; exact List.mem_cons_self u []
            obtain ⟨hw, hh⟩ := hdims u hu img hfu
            have hfle := layout_fst_le 1080 1920 img hw
            have hsle := layout_snd_le 1080 1920 img hh
            have hcx := centerOffset_bounds 1080 (layout 1080 1920 img).1 hfle
            have hcy := centerOffset_bounds 1920 (layout 1080 1920 img).2 hsle
            refine ⟨rfl, rfl, ?_⟩
            intro p hp
            rw [List.mem_singleton] at hp
            subst hp
            exact ⟨hcx.1, hcy.1, hcx.2, hcy.2⟩
      | cons u2 rest2 =>
        -- multi-image branch
        rw [hurls] at hpng
        simp only at hpng
        cases hmap : mapE fetchImage (u :: u2 :: rest2) with
        | error e =>
          rw [hmap] at hpng
          simp [err500] at hpng
        | ok imgs =>
          rw [hmap] at hpng
          have hlen : imgs.length = (u :: u2 :: rest2).length := mapE_ok_length hmap
          have hperm' : order.Perm (List.range imgs.length) := by
            rw [hlen, ← hurls]
            exact hperm
          have hdims' : ∀ img ∈ imgs, 0 < img.width ∧ 0 < img.height := by
            intro img himg
            obtain ⟨j, hj, rfl⟩ := List.mem_iff_getElem.mp himg
            have hfj := mapE_ok_getD "" (⟨1, 1⟩ : Image) hmap j (by omega)
            rw [getD_eq_getElem_of_lt imgs ⟨1, 1⟩ hj] at hfj
            have hmemj : (u :: u2 :: rest2).getD j "" ∈ imageUrls vs := by
              rw [hurls]
              rw [getD_eq_getElem_of_lt (u :: u2 :: rest2) "" (by omega)]
              exact List.getElem_mem (by omega)
            exact hdims _ hmemj _ hfj
          exact multiBranch_within imgs order png hperm' hdims' hpng

/-- Witness for `claim9_placements_within_canvas`: two 1080x1920 images,
completed in input order, are scaled to 523x930 and placed at (278, 20) and
(278, 970), inside the canvas. -/
theorem claim9_placements_within_canvas_witness :
    (⟨1080, 1920, [⟨278, 20, 523, 930⟩, ⟨278, 970, 523, 930⟩]⟩ : Png).canvasWidth = 1080
    ∧ (⟨1080, 1920, [⟨278, 20, 523, 930⟩, ⟨278, 970, 523, 930⟩]⟩ : Png).canvasHeight = 1920
    ∧ ∀ p ∈ (⟨1080, 1920, [⟨278, 20, 523, 930⟩, ⟨278, 970, 523, 930⟩]⟩ : Png).placements,
        0 ≤ p.left ∧ 0 ≤ p.top ∧ p.left + p.width ≤ 1080 ∧ p.top + p.height ≤ 1920 :=
  claim9_placements_within_canvas (fun _ => .ok ⟨1080, 1920⟩) (.vnum 1)
    [⟨some "a"⟩, ⟨some "b"⟩] [0, 1]
    ⟨1080, 1920, [⟨278, 20, 523, 930⟩, ⟨278, 970, 523, 930⟩]⟩
    (by decide)
    (fun url _ img himg => by
      cases himg
      exact ⟨by decide, by decide⟩)
    (by decide)

end ImageCombine
